import Mathlib

/-!
Verification of the multi-agent SOC workflow demo.

This file gives a shallow embedding of the orchestration loop of
`agentic_workflow.py`, the agent hand-off resolution of `agents.py`, and the
tool server dispatch of `my_mcp/server.py`, and proves the testable
properties of the specification against that embedding.

Modelling conventions:
- Python strings are Lean `String`s; substring tests (`in`) are char-list
  infix tests.
- `json.loads` is modelled by an executable recursive-descent parser
  `jsonLoads` over a `Json` value type.  Numbers keep their raw token
  (the claims never compute with numeric values); object fields keep the
  parsed order, and lookups take the last binding for a key, matching the
  overwrite semantics of a Python dict built from parsed pairs.  The model
  covers the JSON grammar without NaN/Infinity literals and without
  surrogate-pair escape sequences.
- The two regular expressions of `agentic_workflow.py` are modelled by
  leftmost-match scanners with lazy-body semantics, exactly mirroring
  `re.search` on those patterns.
- The language-model backend and the out-of-process tool handlers are
  external collaborators; they enter the model as oracles (`Env`): the
  chunk stream of each generation call and the outcome of each tool
  invocation.  Everything the loop itself does with those outcomes is
  modelled concretely.
- A raised-and-uncaught Python exception is modelled by `Except.error`
  carrying the exception's message.
-/

/-- Substring containment on character lists. -/
def isInfixOfL : List Char → List Char → Bool
  | n, [] => n.isEmpty
  | n, c :: t => n.isPrefixOf (c :: t) || isInfixOfL n t

/-- Python `needle in hay` on strings: substring containment. -/
def containsStr (needle hay : String) : Bool :=
  isInfixOfL needle.toList hay.toList

/-- The character `\x7b` (left curly brace), named to keep string scanning explicit. -/
def lbrace : Char := Char.ofNat 123

/-- The character `\x7d` (right curly brace). -/
def rbrace : Char := Char.ofNat 125

/-- The character `[`. -/
def lbrack : Char := '['

/-- The character `]`. -/
def rbrack : Char := ']'

/-- The double-quote character. -/
def quoteChar : Char := '\x22'

/-- JSON values as produced by `json.loads`.  Numbers keep their raw
lexical token (see the module comment). -/
inductive Json where
  | null : Json
  | bool : Bool → Json
  | num : String → Json
  | str : String → Json
  | arr : List Json → Json
  | obj : List (String × Json) → Json

/-- JSON whitespace accepted by the Python `json` scanner: space, tab,
newline, carriage return. -/
def jsonWs (c : Char) : Bool :=
  c == ' ' || c == '\t' || c == '\n' || c == '\r'

/-- Drop leading JSON whitespace. -/
def skipWs (cs : List Char) : List Char := cs.dropWhile jsonWs

/-- Hexadecimal digit value, for `\uXXXX` escapes. -/
def hexVal (c : Char) : Option Nat :=
  if c.isDigit then some (c.toNat - 48)
  else if 'a' ≤ c ∧ c ≤ 'f' then some (c.toNat - 87)
  else if 'A' ≤ c ∧ c ≤ 'F' then some (c.toNat - 70)
  else none

/-- Body of a JSON string literal after the opening quote: returns the
decoded characters and the remainder after the closing quote.  Strict
mode: raw control characters are rejected, escape sequences are decoded. -/
def parseStrBody : Nat → List Char → Option (List Char × List Char)
  | 0, _ => none
  | _ + 1, [] => none
  | fuel + 1, c :: rest =>
    if c = quoteChar then some ([], rest)
    else if c = '\\' then
      match rest with
      | [] => none
      | e :: rest2 =>
        let dec : Option (Char × List Char) :=
          if e = quoteChar then some (quoteChar, rest2)
          else if e = '\\' then some ('\\', rest2)
          else if e = '/' then some ('/', rest2)
          else if e = 'b' then some ('\x08', rest2)
          else if e = 'f' then some ('\x0c', rest2)
          else if e = 'n' then some ('\n', rest2)
          else if e = 'r' then some ('\r', rest2)
          else if e = 't' then some ('\t', rest2)
          else if e = 'u' then
            match rest2 with
            | h1 :: h2 :: h3 :: h4 :: rest3 =>
              match hexVal h1, hexVal h2, hexVal h3, hexVal h4 with
              | some a, some b, some c2, some d =>
                some (Char.ofNat (((a * 16 + b) * 16 + c2) * 16 + d), rest3)
              | _, _, _, _ => none
            | _ => none
          else none
        match dec with
        | some (ch, rest3) => (parseStrBody fuel rest3).map (fun p => (ch :: p.1, p.2))
        | none => none
    else if c.toNat < 32 then none
    else (parseStrBody fuel rest).map (fun p => (c :: p.1, p.2))

/-- A complete JSON string literal (opening quote onwards). -/
def parseJString (fuel : Nat) (cs : List Char) : Option (String × List Char) :=
  match cs with
  | c :: rest =>
    if c = quoteChar then (parseStrBody fuel rest).map (fun p => (String.mk p.1, p.2))
    else none
  | [] => none

/-- Longest decimal-digit prefix and the rest. -/
def decDigits (cs : List Char) : List Char × List Char :=
  (cs.takeWhile Char.isDigit, cs.dropWhile Char.isDigit)

/-- Integer part of a JSON number: `0`, or a nonzero digit followed by digits. -/
def parseIntPart (cs : List Char) : Option (List Char × List Char) :=
  match cs with
  | c :: rest =>
    if c = '0' then some ([c], rest)
    else if c.isDigit then
      let p := decDigits rest
      some (c :: p.1, p.2)
    else none
  | [] => none

/-- Optional fraction part `.digits`; consumed only when at least one digit follows the dot. -/
def parseFracPart (cs : List Char) : List Char × List Char :=
  match cs with
  | c :: rest =>
    if c = '.' then
      let p := decDigits rest
      if p.1.isEmpty then ([], cs) else (c :: p.1, p.2)
    else ([], cs)
  | [] => ([], cs)

/-- Optional exponent part `[eE][+-]?digits`; consumed only when well formed. -/
def parseExpPart (cs : List Char) : List Char × List Char :=
  match cs with
  | c :: rest =>
    if c = 'e' || c = 'E' then
      match rest with
      | s :: rest2 =>
        if s = '+' || s = '-' then
          let p := decDigits rest2
          if p.1.isEmpty then ([], cs) else (c :: s :: p.1, p.2)
        else
          let p := decDigits rest
          if p.1.isEmpty then ([], cs) else (c :: p.1, p.2)
      | [] => ([], cs)
    else ([], cs)
  | [] => ([], cs)

/-- A JSON number token (raw characters) and the rest. -/
def parseNumber (cs : List Char) : Option (List Char × List Char) :=
  match cs with
  | c :: rest =>
    if c = '-' then
      match parseIntPart rest with
      | some (ip, r1) =>
        let f := parseFracPart r1
        let e := parseExpPart f.2
        some (c :: (ip ++ f.1 ++ e.1), e.2)
      | none => none
    else
      match parseIntPart cs with
      | some (ip, r1) =>
        let f := parseFracPart r1
        let e := parseExpPart f.2
        some (ip ++ f.1 ++ e.1, e.2)
      | none => none
  | [] => none

mutual

/-- One JSON value at the head of the input (no leading whitespace). -/
def parseValue : Nat → List Char → Option (Json × List Char)
  | 0, _ => none
  | fuel + 1, cs =>
    match cs with
    | [] => none
    | c :: rest =>
      if c = quoteChar then
        (parseStrBody fuel rest).map (fun p => (Json.str (String.mk p.1), p.2))
      else if c = lbrace then
        match skipWs rest with
        | d :: rest2 =>
          if d = rbrace then some (Json.obj [], rest2)
          else (parseMembers fuel (d :: rest2)).map (fun p => (Json.obj p.1, p.2))
        | [] => none
      else if c = lbrack then
        match skipWs rest with
        | d :: rest2 =>
          if d = rbrack then some (Json.arr [], rest2)
          else (parseElems fuel (d :: rest2)).map (fun p => (Json.arr p.1, p.2))
        | [] => none
      else if c = 't' then
        if "true".toList.isPrefixOf cs then some (Json.bool true, cs.drop 4) else none
      else if c = 'f' then
        if "false".toList.isPrefixOf cs then some (Json.bool false, cs.drop 5) else none
      else if c = 'n' then
        if "null".toList.isPrefixOf cs then some (Json.null, cs.drop 4) else none
      else
        (parseNumber cs).map (fun p => (Json.num (String.mk p.1), p.2))

/-- Members of a JSON object, first key expected at the head; consumes the
closing brace. -/
def parseMembers : Nat → List Char → Option (List (String × Json) × List Char)
  | 0, _ => none
  | fuel + 1, cs =>
    match parseJString fuel cs with
    | none => none
    | some (k, r1) =>
      match skipWs r1 with
      | c :: r2 =>
        if c = ':' then
          match parseValue fuel (skipWs r2) with
          | none => none
          | some (v, r3) =>
            match skipWs r3 with
            | d :: r4 =>
              if d = ',' then
                (parseMembers fuel (skipWs r4)).map (fun p => ((k, v) :: p.1, p.2))
              else if d = rbrace then some ([(k, v)], r4)
              else none
            | [] => none
        else none
      | [] => none

/-- Elements of a JSON array, first element expected at the head; consumes
the closing bracket. -/
def parseElems : Nat → List Char → Option (List Json × List Char)
  | 0, _ => none
  | fuel + 1, cs =>
    match parseValue fuel cs with
    | none => none
    | some (v, r1) =>
      match skipWs r1 with
      | c :: r2 =>
        if c = ',' then (parseElems fuel (skipWs r2)).map (fun p => (v :: p.1, p.2))
        else if c = rbrack then some ([v], r2)
        else none
      | [] => none

end

/-- Model of Python `json.loads`: parse a complete document, returning
`none` on any `JSONDecodeError`. -/
def jsonLoads (s : String) : Option Json :=
  match parseValue (s.length + 1) (skipWs s.toList) with
  | some (v, rest) => if (skipWs rest).isEmpty then some v else none
  | none => none

/-- Lookup in parsed object fields; the last binding for a key wins,
matching Python dict overwrite semantics. -/
def jlookup (fields : List (String × Json)) (key : String) : Option Json :=
  fields.foldl (fun acc p => if p.1 = key then some p.2 else acc) none

/-- Python `d[key]` on a parsed JSON value: the value, or the uncaught
exception's message (`str(KeyError(key))` is the quoted key). -/
def pyGetItem (j : Json) (key : String) : Except String Json :=
  match j with
  | Json.obj fs =>
    match jlookup fs key with
    | some v => Except.ok v
    | none => Except.error ("\x27" ++ key ++ "\x27")
  | _ => Except.error "TypeError: value is not subscriptable"

/-- Python `d.get(key, default)` on a parsed JSON object. -/
def jGetD (j : Json) (key : String) (d : Json) : Json :=
  match j with
  | Json.obj fs => (jlookup fs key).getD d
  | _ => d

/-- Whether a parsed JSON object has a key. -/
def hasKey (j : Json) (key : String) : Bool :=
  match j with
  | Json.obj fs => fs.any (fun p => p.1 == key)
  | _ => false

/-- Truthiness of the mantissa of a raw JSON number token (zero iff every
digit before any exponent marker is `0`). -/
def numTruthy (raw : String) : Bool :=
  (raw.toList.takeWhile (fun c => c != 'e' && c != 'E')).any
    (fun c => c.isDigit && c != '0')

/-- Python truthiness of a parsed JSON value (`if tc:`). -/
def jsonTruthy : Json → Bool
  | Json.null => false
  | Json.bool b => b
  | Json.num raw => numTruthy raw
  | Json.str s => s != ""
  | Json.arr xs => !xs.isEmpty
  | Json.obj fs => !fs.isEmpty

/-- Python regex `\s` restricted to ASCII: space, tab, newline, carriage
return, vertical tab, form feed. -/
def reWs (c : Char) : Bool :=
  c == ' ' || c == '\t' || c == '\n' || c == '\r' || c == '\x0b' || c == '\x0c'

/-- Lazy body of the capture group in `<tool_call>\s*(\{.*?\})\s*</tool_call>`
(DOTALL): the shortest character run ending at a closing brace that is
followed, after regex whitespace, by the literal closing tag.  Returns the
body without its closing brace. -/
def toolBody : List Char → Option (List Char)
  | [] => none
  | c :: rest =>
    if c == rbrace && "</tool_call>".toList.isPrefixOf (rest.dropWhile reWs) then
      some []
    else
      (toolBody rest).map (fun b => c :: b)

/-- Match of the tool-call pattern anchored at the head of the input;
returns the capture group (braces included). -/
def toolMatchAt (cs : List Char) : Option (List Char) :=
  if "<tool_call>".toList.isPrefixOf cs then
    match (cs.drop 11).dropWhile reWs with
    | c :: rest =>
      if c == lbrace then (toolBody rest).map (fun b => lbrace :: (b ++ [rbrace]))
      else none
    | [] => none
  else none

/-- `re.search` for the tool-call pattern: leftmost position at which the
anchored match succeeds. -/
def reSearchTool : List Char → Option (List Char)
  | [] => none
  | c :: rest =>
    match toolMatchAt (c :: rest) with
    | some cap => some cap
    | none => reSearchTool rest

/-- `extract_tool_call` of `agentic_workflow.py`: first regex match, then
`json.loads` on the capture; `None` when there is no match or the capture
is not valid JSON. -/
def extract_tool_call (text : String) : Option Json :=
  match reSearchTool text.toList with
  | some cap => jsonLoads (String.mk cap)
  | none => none

/-- Lazy body of the capture group in `<handoff>(.*?)</handoff>` (no
DOTALL, so the body cannot cross a newline). -/
def handoffBody : List Char → Option (List Char)
  | [] => none
  | c :: rest =>
    if "</handoff>".toList.isPrefixOf (c :: rest) then some []
    else if c == '\n' then none
    else (handoffBody rest).map (fun b => c :: b)

/-- Match of the handoff pattern anchored at the head of the input. -/
def handoffMatchAt (cs : List Char) : Option (List Char) :=
  if "<handoff>".toList.isPrefixOf cs then handoffBody (cs.drop 9) else none

/-- `re.search` for the handoff pattern. -/
def reSearchHandoff : List Char → Option (List Char)
  | [] => none
  | c :: rest =>
    match handoffMatchAt (c :: rest) with
    | some b => some b
    | none => reSearchHandoff rest

/-- `detect_handoff` of `agentic_workflow.py`. -/
def detect_handoff (text : String) : Option String :=
  (reSearchHandoff text.toList).map String.mk

/-- `detect_terminate` of `agentic_workflow.py`. -/
def detect_terminate (text : String) : Bool :=
  containsStr "</terminate>" text

/-- `SYSTEM_START_MESSAGE` of `agentic_workflow.py` (the dash characters
are U+2013 and U+2011 as in the source). -/
def SYSTEM_START_MESSAGE : String :=
  "\nTime: 2024-01-05T15:12:00Z \nSeverity: High  \nRule: Suspicious Email detected – Excel Macro Alert  \nSource: patrick.tremblay@organization‑a.com  \nDest: sofia.nguyen@organization‑a.com  \nSubject: \x22Re: Sophia, Your Expertise Needed for Key Financial Insights!\x22  \nAction: Allowed  \n"

/-- `ORCHESTRATOR_REMINDER` of `agentic_workflow.py`. -/
def ORCHESTRATOR_REMINDER : String :=
  "You have ended your turn without initiating a followup process meant to complete the task. As the orchestrator, you can either:\n1. Handoff to another agent using <handoff>AgentName</handoff> to further complete the task.\n2. Execute a tool if it aligns with your strategy to solve the task using <tool_call>\x7b...\x7d</tool_call>.\n3. Terminate the workflow if the task is solved using </terminate>\nPlease choose one of these actions to proceed.\nNote that if this situation arises after you made a tool, termination or a handoff call, but no termination, tool result or hanfoff was returned, \nthis can be related to an incorrect use of the tags or the tool call.\nYou must repeat your action until you get a system result."

/-- `SUBAGENT_REMINDER` of `agentic_workflow.py`. -/
def SUBAGENT_REMINDER : String :=
  "You have ended your turn without initiating one of your allowed actions. You can either:\n1. Execute a tool call using <tool_call>\x7b...\x7d</tool_call>.\n2. Handoff to the orchestrator using <handoff>Orchestrator</handoff>\nIf you feel you have finished your task, you should handoff to the orchestrator. Otherwise, you can continue with tool calls to accomplish your task. \nNote that if this situation arises after you made a tool or a handoff call, but no tool result or hanfoff was returned, this can be related to an incorrect use of the tags or the tool call.\nYou must repeat your action until you get a system result. "

/-- `SUBAGENT_STEP_LIMIT_MESSAGE` of `agentic_workflow.py`. -/
def SUBAGENT_STEP_LIMIT_MESSAGE : String :=
  "Hey orchestrator, the turn was given back to you on suspicion that your subagent might have been stuck.\nYou can refine your plan and hand off to them again, or decide that the workflow has failed and terminate."

/-- `MAX_TOTAL_STEPS_MESSAGE` of `agentic_workflow.py`. -/
def MAX_TOTAL_STEPS_MESSAGE : String :=
  "The workflow has reached the maximum allowed steps and is being automatically terminated. This is to prevent infinite loops."

/-- An agent as far as hand-off resolution is concerned: its `name` and its
`handoffs` list of permitted target agents (the other `Agent.__init__`
fields play no role in `Agent.handoff`).  Lean inductives cannot tie the
cyclic knot of the demo's object graph, so the workflow loop below works
with agent names; this tree-shaped type carries the generic contract. -/
inductive Agent where
  | mk : String → List Agent → Agent

/-- The agent's name. -/
def Agent.name : Agent → String
  | Agent.mk n _ => n

/-- The agent's permitted hand-off targets. -/
def Agent.handoffs : Agent → List Agent
  | Agent.mk _ hs => hs

/-- `Agent.handoff` of `agents.py`: self hand-off always fails; otherwise
the first agent of the permitted list bearing the target name is returned;
otherwise a `ValueError` naming the allowed targets is raised. -/
def Agent.handoff (self : Agent) (target_agent_name : String) : Except String Agent :=
  if target_agent_name = self.name then
    Except.error ("Cannot hand off to self (" ++ self.name ++ ")")
  else
    match self.handoffs.find? (fun a => a.name == target_agent_name) with
    | some a => Except.ok a
    | none =>
      Except.error ("Handoff to \x27" ++ target_agent_name ++ "\x27 not allowed. Allowed: "
        ++ String.intercalate ", " (self.handoffs.map Agent.name))

/-- Permitted hand-off target names in the demo workflow:
`orchestrator.handoffs = [mail_agent]` and
`mail_agent.handoffs = [orchestrator]`. -/
def wfHandoffNames (name : String) : List String :=
  if name = "Orchestrator" then ["MailAgent"]
  else if name = "MailAgent" then ["Orchestrator"]
  else []

/-- `active.handoff(target)` as invoked by the workflow loop, expressed on
agent names via `wfHandoffNames` (names are unique workflow-wide, so the
returned agent is determined by its name). -/
def handoffByName (self target : String) : Except String String :=
  if target = self then
    Except.error ("Cannot hand off to self (" ++ self ++ ")")
  else if (wfHandoffNames self).contains target then Except.ok target
  else
    Except.error ("Handoff to \x27" ++ target ++ "\x27 not allowed. Allowed: "
      ++ String.intercalate ", " (wfHandoffNames self))

/-- One transcript entry: `{"role": ..., "content": ...}`.  The code uses
only the role strings "system" and "assistant". -/
structure Entry where
  role : String
  content : String

/-- Mutable state of the orchestration loop, plus two oracle cursors:
`genCount` counts generation calls issued so far, `toolCount` counts tool
invocations attempted so far. -/
structure LoopState where
  active : String
  convo : List Entry
  totalSteps : Nat
  subSteps : Nat
  genCount : Nat
  toolCount : Nat

/-- The external collaborators of one run, as oracles: `gen k` is the chunk
stream of the k-th generation call (`Runner.run_streamed`), and
`tool k name args` is the outcome of the k-th `active.RunTool(name, args)`
invocation (`Except.error` models a raised exception, whose message the
loop formats). -/
structure Env where
  gen : Nat → List String
  tool : Nat → Json → Json → Except String String

/-- The streaming consumption loop: chunks are appended one by one and
streaming stops early as soon as a closing action tag is observed.  The
second component is the `terminate_detected` flag. -/
def streamFold (isRoot : Bool) : List String → String → String × Bool
  | [], acc => (acc, false)
  | c :: rest, acc =>
    if containsStr "</tool_call>" (acc ++ c) then (acc ++ c, false)
    else if isRoot && containsStr "</terminate>" (acc ++ c) then (acc ++ c, true)
    else if containsStr "</handoff>" (acc ++ c) then (acc ++ c, false)
    else streamFold isRoot rest (acc ++ c)

/-- The consecutive-subagent-step counter after the bookkeeping at the top
of the loop body: incremented for a non-root active agent, reset for root. -/
def stepSub (s : LoopState) : Nat :=
  if s.active ≠ "Orchestrator" then s.subSteps + 1 else 0

/-- The assistant text and `terminate_detected` flag produced by the
current step's generation call. -/
def stepTxt (env : Env) (s : LoopState) : String × Bool :=
  streamFold (s.active == "Orchestrator") (env.gen s.genCount) ""

/-- Result of one iteration of the `while` body: proceed to the next
iteration, or `break` out of the loop (root termination marker). -/
inductive StepOut where
  | next : LoopState → StepOut
  | broke : LoopState → StepOut

/-- The state carried by a step outcome. -/
def StepOut.state : StepOut → LoopState
  | StepOut.next s => s
  | StepOut.broke s => s

/-- Tail of the loop body reached when no truthy tool call was extracted:
the hand-off check, then the role-specific reminder checks. `tcT` is the
truthiness of the extracted tool call (false on this path). -/
def reminderStep (s : LoopState) (total sub gc : Nat) (convo1 : List Entry)
    (termFlag tcT tgtT : Bool) : StepOut :=
  if s.active = "Orchestrator" then
    if !(tcT || tgtT || termFlag) then
      StepOut.next ⟨s.active, convo1 ++ [⟨"system", ORCHESTRATOR_REMINDER⟩], total, sub, gc, s.toolCount⟩
    else StepOut.next ⟨s.active, convo1, total, sub, gc, s.toolCount⟩
  else
    if !(tcT || tgtT) then
      StepOut.next ⟨s.active, convo1 ++ [⟨"system", SUBAGENT_REMINDER⟩], total, sub, gc, s.toolCount⟩
    else StepOut.next ⟨s.active, convo1, total, sub, gc, s.toolCount⟩

/-- Hand-off check of the loop body: a truthy captured target is resolved;
resolution failure (`ValueError`) is appended as a system entry with the
active agent unchanged; success switches the active agent and resets the
subagent counter exactly when the target is the root. A falsy target falls
through to the reminder checks. -/
def afterTool (s : LoopState) (total sub gc : Nat) (convo1 : List Entry)
    (txt : String) (termFlag tcT : Bool) : StepOut :=
  match detect_handoff txt with
  | some target =>
    if target ≠ "" then
      match handoffByName s.active target with
      | Except.ok newActive =>
        StepOut.next ⟨newActive, convo1, total,
          if newActive = "Orchestrator" then 0 else sub, gc, s.toolCount⟩
      | Except.error e =>
        StepOut.next ⟨s.active, convo1 ++ [⟨"system", "Handoff failed: " ++ e⟩], total, sub, gc, s.toolCount⟩
    else reminderStep s total sub gc convo1 termFlag tcT false
  | none => reminderStep s total sub gc convo1 termFlag tcT false

/-- One iteration of the `while total_steps < max_total_steps` body of
`run_agentic_workflow`: bump the counters, fire the subagent circuit
breaker without generating, otherwise generate (consuming the stream with
early stop), append the assistant turn, then in order: root termination,
tool call (with `tc["name"]` and `tc.get("arguments", {})` evaluated
inside the `try`), hand-off, reminders. -/
def stepLoop (env : Env) (maxSub : Nat) (s : LoopState) : StepOut :=
  if maxSub < stepSub s then
    StepOut.next ⟨"Orchestrator", s.convo ++ [⟨"system", SUBAGENT_STEP_LIMIT_MESSAGE⟩],
      s.totalSteps + 1, 0, s.genCount, s.toolCount⟩
  else if s.active = "Orchestrator" ∧ detect_terminate (stepTxt env s).1 = true then
    StepOut.broke ⟨s.active, s.convo ++ [⟨"assistant", (stepTxt env s).1⟩],
      s.totalSteps + 1, stepSub s, s.genCount + 1, s.toolCount⟩
  else
    match extract_tool_call (stepTxt env s).1 with
    | some j =>
      if jsonTruthy j then
        match pyGetItem j "name" with
        | Except.error m =>
          StepOut.next ⟨s.active,
            s.convo ++ [⟨"assistant", (stepTxt env s).1⟩, ⟨"system", "Tool error: " ++ m⟩],
            s.totalSteps + 1, stepSub s, s.genCount + 1, s.toolCount⟩
        | Except.ok nameJ =>
          match env.tool s.toolCount nameJ (jGetD j "arguments" (Json.obj [])) with
          | Except.ok r =>
            StepOut.next ⟨s.active,
              s.convo ++ [⟨"assistant", (stepTxt env s).1⟩,
                ⟨"system", "<tool_result>" ++ r ++ "</tool_result>"⟩],
              s.totalSteps + 1, stepSub s, s.genCount + 1, s.toolCount + 1⟩
          | Except.error m =>
            StepOut.next ⟨s.active,
              s.convo ++ [⟨"assistant", (stepTxt env s).1⟩, ⟨"system", "Tool error: " ++ m⟩],
              s.totalSteps + 1, stepSub s, s.genCount + 1, s.toolCount + 1⟩
      else
        afterTool s (s.totalSteps + 1) (stepSub s) (s.genCount + 1)
          (s.convo ++ [⟨"assistant", (stepTxt env s).1⟩]) (stepTxt env s).1 (stepTxt env s).2 false
    | none =>
      afterTool s (s.totalSteps + 1) (stepSub s) (s.genCount + 1)
        (s.convo ++ [⟨"assistant", (stepTxt env s).1⟩]) (stepTxt env s).1 (stepTxt env s).2 false

/-- The `while total_steps < max_total_steps` loop, with fuel.  Each
iteration increases `totalSteps` by exactly one, so fuel
`maxTotal - totalSteps` makes this the exact while loop.  The Boolean
records whether the loop exited through the root-termination `break`. -/
def loopIter (env : Env) (maxTotal maxSub : Nat) : Nat → LoopState → LoopState × Bool
  | 0, s => (s, false)
  | fuel + 1, s =>
    if s.totalSteps < maxTotal then
      match stepLoop env maxSub s with
      | StepOut.next s2 => loopIter env maxTotal maxSub fuel s2
      | StepOut.broke s2 => (s2, true)
    else (s, false)

/-- Observable outcome of a whole run: the final transcript, the final
total-step counter, and whether the loop exited through the root's
termination marker (the spec's `Terminated`; otherwise `ForcedTerminated`). -/
structure RunResult where
  convo : List Entry
  totalSteps : Nat
  terminatedByMarker : Bool

/-- The state before the first iteration: the orchestrator is active, the
transcript holds the initial system message (`system_message or
SYSTEM_START_MESSAGE`: the module default replaces a falsy argument), and
every counter is zero. -/
def initState (system_message : String) : LoopState :=
  ⟨"Orchestrator",
    [⟨"system", if system_message = "" then SYSTEM_START_MESSAGE else system_message⟩],
    0, 0, 0, 0⟩

/-- `run_agentic_workflow` of `agentic_workflow.py`: seed the transcript,
run the step loop (fuel `max_total_steps` is exact, as every iteration
adds one to `totalSteps` starting from zero), and append
`MAX_TOTAL_STEPS_MESSAGE` when `total_steps >= max_total_steps` at loop
exit.  Console printing and the JSON dump of the transcript are I/O and
outside the model. -/
def run_agentic_workflow (env : Env) (system_message : String)
    (max_total_steps max_subagent_steps : Nat) : RunResult :=
  ⟨(if max_total_steps ≤ (loopIter env max_total_steps max_subagent_steps max_total_steps
        (initState system_message)).1.totalSteps then
      (loopIter env max_total_steps max_subagent_steps max_total_steps
        (initState system_message)).1.convo ++ [⟨"system", MAX_TOTAL_STEPS_MESSAGE⟩]
    else
      (loopIter env max_total_steps max_subagent_steps max_total_steps
        (initState system_message)).1.convo),
    (loopIter env max_total_steps max_subagent_steps max_total_steps
      (initState system_message)).1.totalSteps,
    (loopIter env max_total_steps max_subagent_steps max_total_steps
      (initState system_message)).2⟩

/-- Server-side tool record (`_Tool` of `my_mcp/server.py`).  `name`,
`description` and `input_schema` are the registration metadata (the
signature-introspection that builds `input_schema` is reflection on the
host language and enters the model as a given field); `fn` models
`_Tool.call`, i.e. `self.fn(**args)`: it receives the request's `args`
value and either returns a result or raises (message). -/
structure SrvTool where
  name : String
  description : String
  input_schema : Json
  fn : Json → Except String Json

/-- `SimpleServer`: its name and the `_tools` dict in registration order. -/
structure SimpleServer where
  name : String
  tools : List (String × SrvTool)

/-- Lookup in the `_tools` dict by string key (last registration for a
name wins, as dict assignment overwrites). -/
def lookupTool (ts : List (String × SrvTool)) (key : String) : Option SrvTool :=
  ts.foldl (fun acc p => if p.1 = key then some p.2 else acc) none

/-- `self._tools.get(name)` where `name` is a parsed JSON value: Python
`dict.get` raises `TypeError` on unhashable keys (lists and dicts); any
hashable non-string key is simply absent from a str-keyed dict. -/
def toolsGet (ts : List (String × SrvTool)) (key : Json) : Except String (Option SrvTool) :=
  match key with
  | Json.arr _ => Except.error "unhashable type: \x27list\x27"
  | Json.obj _ => Except.error "unhashable type: \x27dict\x27"
  | Json.str s => Except.ok (lookupTool ts s)
  | _ => Except.ok none

/-- Whether an optional JSON value is a given string (Python
`request.get("type") == s`). -/
def isStrVal (o : Option Json) (t : String) : Bool :=
  match o with
  | some (Json.str s) => s == t
  | _ => false

/-- Python `str()` of a parsed JSON scalar, for the f-string in the
"not found" message (list/dict names never reach it: `dict.get` raises
first). -/
def pyStr : Json → String
  | Json.str s => s
  | Json.bool true => "True"
  | Json.bool false => "False"
  | Json.null => "None"
  | Json.num raw => raw
  | Json.arr _ => ""
  | Json.obj _ => ""

/-- `SimpleServer._handle` of `my_mcp/server.py`.  `Except.error` models an
exception escaping `_handle` (and hence crashing the `run` loop, which has
no handler): `request["name"]` raises `KeyError` when absent, and
`self._tools.get(name)` raises `TypeError` on an unhashable name.  All
three `call_tool` outcomes — success, unknown tool, handler failure — are
single `Except.ok` responses. -/
def SimpleServer.handle (srv : SimpleServer) (request : Json) : Except String Json :=
  match request with
  | Json.obj fields =>
    if isStrVal (jlookup fields "type") "list_tools" then
      Except.ok (Json.obj [("tools", Json.arr (srv.tools.map (fun p =>
        Json.obj [("name", Json.str p.2.name), ("description", Json.str p.2.description),
          ("inputSchema", p.2.input_schema)])))])
    else if isStrVal (jlookup fields "type") "call_tool" then
      match jlookup fields "name" with
      | none => Except.error ("\x27name\x27")
      | some nameJ =>
        let args := (jlookup fields "args").getD (Json.obj [])
        match toolsGet srv.tools nameJ with
        | Except.error m => Except.error m
        | Except.ok none =>
          Except.ok (Json.obj [("error", Json.str ("Tool \x27" ++ pyStr nameJ ++ "\x27 not found")),
            ("isError", Json.bool true)])
        | Except.ok (some t) =>
          match t.fn args with
          | Except.ok content =>
            Except.ok (Json.obj [("content", content), ("isError", Json.bool false)])
          | Except.error m =>
            Except.ok (Json.obj [("error", Json.str m), ("isError", Json.bool true)])
    else Except.ok (Json.obj [("error", Json.str "Unknown request"), ("isError", Json.bool true)])
  | _ => Except.error "AttributeError: request has no attribute get"

/-- The well-formed `callTool` request of the tool protocol, as sent by
`SimpleClient.call_tool`. -/
def callToolReq (name : String) (args : Json) : Json :=
  Json.obj [("type", Json.str "call_tool"), ("name", Json.str name), ("args", args)]

/-- Python truthiness of `tc = extract_tool_call(...)` (`None` and the
empty dict are falsy). -/
def tcTruthy (o : Option Json) : Bool :=
  match o with
  | some j => jsonTruthy j
  | none => false

/-- Python truthiness of `target = detect_handoff(...)` (`None` and the
empty capture are falsy). -/
def tgtTruthy (o : Option String) : Bool :=
  match o with
  | some t => t != ""
  | none => false

/-- The second transcript entry appended by the tool-call branch of the
loop body: the wrapped tool result on success, or the caught exception
formatted as "Tool error: ..." (including the `KeyError` raised by
`tc["name"]`). -/
def toolStepEntry (env : Env) (s : LoopState) (j : Json) : Entry :=
  match pyGetItem j "name" with
  | Except.error m => ⟨"system", "Tool error: " ++ m⟩
  | Except.ok nameJ =>
    match env.tool s.toolCount nameJ (jGetD j "arguments" (Json.obj [])) with
    | Except.ok r => ⟨"system", "<tool_result>" ++ r ++ "</tool_result>"⟩
    | Except.error m => ⟨"system", "Tool error: " ++ m⟩

/-- The tool-invocation cursor after the tool-call branch: an invocation
was attempted unless `tc["name"]` already raised. -/
def toolStepCount (s : LoopState) (j : Json) : Nat :=
  match pyGetItem j "name" with
  | Except.error _ => s.toolCount
  | Except.ok _ => s.toolCount + 1

/-- Declarative leftmost-match specification for the tool-call pattern:
`cap` is the capture of the anchored match at position `k`, and the
anchored match fails at every earlier position. -/
def FirstToolCapture (text : String) (cap : List Char) : Prop :=
  ∃ k, toolMatchAt (text.toList.drop k) = some cap ∧
    ∀ i, i < k → toolMatchAt (text.toList.drop i) = none

/-- An environment whose model output is always empty and whose tools
always succeed with an empty result. -/
def envIdle : Env := ⟨fun _ => [], fun _ _ _ => Except.ok ""⟩

/-- An environment whose model always emits the bare termination marker. -/
def envTerm : Env := ⟨fun _ => ["</terminate>"], fun _ _ _ => Except.ok ""⟩

/-- An environment whose model always emits the Scenario A tool call and
whose tools succeed with result "logged". -/
def envC3 : Env :=
  ⟨fun _ => ["<tool_call>\x7b\x22name\x22:\x22log_ticket\x22,\x22arguments\x22:\x7b\x22status\x22:\x22ok\x22,\x22outcome\x22:\x22success\x22\x7d\x7d</tool_call>"],
    fun _ _ _ => Except.ok "logged"⟩

/-- Loop state at the start of Scenario A: root active, one system entry. -/
def sC3 : LoopState := ⟨"Orchestrator", [⟨"system", "M"⟩], 0, 0, 0, 0⟩

/-- The parsed Scenario A payload. -/
def jC3 : Json :=
  Json.obj [("name", Json.str "log_ticket"),
    ("arguments", Json.obj [("status", Json.str "ok"), ("outcome", Json.str "success")])]

/-- A generated text whose tool-call tag encloses an unparsable payload. -/
def txtC4 : String := "<tool_call>\x7bbad\x7d</tool_call>"

/-- An environment whose model always emits `txtC4`. -/
def envC4 : Env := ⟨fun _ => [txtC4], fun _ _ _ => Except.ok ""⟩

/-- Root state with an empty transcript. -/
def sC4 : LoopState := ⟨"Orchestrator", [], 0, 0, 0, 0⟩

/-- A leaf mail agent with no permitted hand-offs. -/
def mailLeaf : Agent := Agent.mk "MailAgent" []

/-- An orchestrator agent permitted to hand off to `mailLeaf`. -/
def orchA : Agent := Agent.mk "Orchestrator" [mailLeaf]

/-- A server with no registered tools. -/
def srvEmpty : SimpleServer := ⟨"SimpleServer", []⟩

/-- A tool whose handler echoes its arguments. -/
def echoTool : SrvTool := ⟨"echo", "", Json.obj [], fun a => Except.ok a⟩

/-- A server with the single tool `echo`. -/
def srvW : SimpleServer := ⟨"SimpleServer", [("echo", echoTool)]⟩

/-- A `call_tool` request whose name is an unhashable JSON value (a list). -/
def reqUnhashable : Json :=
  Json.obj [("type", Json.str "call_tool"), ("name", Json.arr [])]

/-- `call_tool` request fields naming an unregistered tool. -/
def fieldsW : List (String × Json) :=
  [("type", Json.str "call_tool"), ("name", Json.str "nope")]

/-- A non-root loop state whose subagent counter sits at the limit 5. -/
def sMail5 : LoopState := ⟨"MailAgent", [], 0, 5, 3, 2⟩

/-- A non-root loop state with an empty transcript. -/
def sMailTerm : LoopState := ⟨"MailAgent", [], 0, 0, 0, 0⟩

/-- An environment whose model always emits a hand-off to the orchestrator. -/
def envHand : Env := ⟨fun _ => ["<handoff>Orchestrator</handoff>"], fun _ _ _ => Except.ok ""⟩

/-- A non-root loop state two steps into a run. -/
def sMailHand : LoopState := ⟨"MailAgent", [], 2, 1, 0, 0⟩

/-- An environment whose model emits a tool call without an "arguments"
field and whose tools always raise "boom". -/
def envC10 : Env :=
  ⟨fun _ => ["<tool_call>\x7b\x22name\x22:\x22ping\x22\x7d</tool_call>"],
    fun _ _ _ => Except.error "boom"⟩

/-- Root state with an empty transcript (for the C10 witness). -/
def sC10 : LoopState := ⟨"Orchestrator", [], 0, 0, 0, 0⟩

/-- The parsed payload of `envC10`'s tool call. -/
def jC10 : Json := Json.obj [("name", Json.str "ping")]

theorem lastConcat {α : Type} (l : List α) (a : α) : (l ++ [a]).getLast? = some a := by
  simp

theorem streamFold_false_flag (chunks : List String) : ∀ acc : String,
    (streamFold false chunks acc).2 = false := by
  induction chunks with
  | nil => intro acc; rfl
  | cons c rest ih =>
    intro acc
    unfold streamFold
    split
    · rfl
    · split
      · next h => simp at h
      · split
        · rfl
        · exact ih _

theorem streamFold_flag_terminate (isRoot : Bool) (chunks : List String) : ∀ acc : String,
    (streamFold isRoot chunks acc).2 = true →
    isRoot = true ∧ containsStr "</terminate>" (streamFold isRoot chunks acc).1 = true := by
  induction chunks with
  | nil => intro acc h; exact absurd h (by simp [streamFold])
  | cons c rest ih =>
    intro acc
    unfold streamFold
    by_cases h1 : containsStr "</tool_call>" (acc ++ c) = true
    · rw [if_pos h1]
      intro h
      simp at h
    · rw [if_neg h1]
      by_cases h2 : (isRoot && containsStr "</terminate>" (acc ++ c)) = true
      · rw [if_pos h2]
        intro _
        exact ⟨(Bool.and_eq_true _ _ |>.mp h2).1, (Bool.and_eq_true _ _ |>.mp h2).2⟩
      · rw [if_neg h2]
        by_cases h3 : containsStr "</handoff>" (acc ++ c) = true
        · rw [if_pos h3]
          intro h
          simp at h
        · rw [if_neg h3]
          exact ih (acc ++ c)

theorem jlookup_none (key : String) : ∀ fs : List (String × Json),
    (∀ p ∈ fs, p.1 ≠ key) → jlookup fs key = none := by
  intro fs
  induction fs with
  | nil => intro _; rfl
  | cons p t ih =>
    intro h
    show List.foldl _ (if p.1 = key then some p.2 else none) t = none
    rw [if_neg (h p (List.mem_cons_self p t))]
    exact ih fun q hq => h q (List.mem_cons_of_mem p hq)

theorem jGetD_of_not_hasKey (j : Json) (key : String) (d : Json)
    (h : hasKey j key = false) : jGetD j key d = d := by
  cases j with
  | obj fs =>
    have hne : ∀ p ∈ fs, p.1 ≠ key := by
      intro p hp he
      have : fs.any (fun p => p.1 == key) = true :=
        List.any_eq_true.mpr ⟨p, hp, by simpa using he⟩
      rw [hasKey] at h
      rw [this] at h
      cases h
    rw [jGetD, jlookup_none key fs hne]
    rfl
  | null => rfl
  | bool b => rfl
  | num r => rfl
  | str s => rfl
  | arr xs => rfl

theorem no_breaker {s : LoopState} {ms : Nat}
    (h : s.active ≠ "Orchestrator" → s.subSteps + 1 ≤ ms) : ¬ ms < stepSub s := by
  unfold stepSub
  split
  · next hne => exact Nat.not_lt.mpr (h hne)
  · exact Nat.not_lt.mpr (Nat.zero_le ms)

theorem reminderStep_state (s : LoopState) (total sub gc : Nat) (convo1 : List Entry)
    (a b c : Bool) :
    ∃ s2, reminderStep s total sub gc convo1 a b c = StepOut.next s2 ∧
      s2.active = s.active ∧ s2.totalSteps = total ∧ s2.subSteps = sub ∧ s2.genCount = gc := by
  unfold reminderStep
  split <;> split <;> exact ⟨_, rfl, rfl, rfl, rfl, rfl⟩

theorem afterTool_state (s : LoopState) (total sub gc : Nat) (convo1 : List Entry)
    (txt : String) (a b : Bool) :
    ∃ s2, afterTool s total sub gc convo1 txt a b = StepOut.next s2 ∧
      s2.totalSteps = total ∧ s2.genCount = gc := by
  unfold afterTool
  split
  · split
    · split
      · exact ⟨_, rfl, rfl, rfl⟩
      · exact ⟨_, rfl, rfl, rfl⟩
    · obtain ⟨s2, he, _, h2, _, h4⟩ := reminderStep_state s total sub gc convo1 a b false
      exact ⟨s2, he, h2, h4⟩
  · obtain ⟨s2, he, _, h2, _, h4⟩ := reminderStep_state s total sub gc convo1 a b false
    exact ⟨s2, he, h2, h4⟩

theorem stepLoop_total (env : Env) (ms : Nat) (s : LoopState) :
    (stepLoop env ms s).state.totalSteps = s.totalSteps + 1 := by
  unfold stepLoop
  split
  · rfl
  · split
    · rfl
    · split
      · split
        · split
          · rfl
          · split
            · rfl
            · rfl
        · obtain ⟨s2, he, h2, _⟩ := afterTool_state s (s.totalSteps + 1) (stepSub s)
            (s.genCount + 1) (s.convo ++ [⟨"assistant", (stepTxt env s).1⟩])
            (stepTxt env s).1 (stepTxt env s).2 false
          rw [he]
          exact h2
      · obtain ⟨s2, he, h2, _⟩ := afterTool_state s (s.totalSteps + 1) (stepSub s)
          (s.genCount + 1) (s.convo ++ [⟨"assistant", (stepTxt env s).1⟩])
          (stepTxt env s).1 (stepTxt env s).2 false
        rw [he]
        exact h2

theorem stepLoop_broke (env : Env) (ms : Nat) (s s2 : LoopState)
    (h : stepLoop env ms s = StepOut.broke s2) :
    s.active = "Orchestrator" ∧ detect_terminate (stepTxt env s).1 = true ∧
      s2 = ⟨s.active, s.convo ++ [⟨"assistant", (stepTxt env s).1⟩], s.totalSteps + 1,
        stepSub s, s.genCount + 1, s.toolCount⟩ := by
  unfold stepLoop at h
  split at h
  · exact StepOut.noConfusion h
  · split at h
    · next hc =>
      refine ⟨hc.1, hc.2, ?_⟩
      have := StepOut.broke.inj h
      rw [← this]
    · split at h
      · split at h
        · split at h
          · exact StepOut.noConfusion h
          · split at h
            · exact StepOut.noConfusion h
            · exact StepOut.noConfusion h
        · obtain ⟨s3, he, _, _⟩ := afterTool_state s (s.totalSteps + 1) (stepSub s)
            (s.genCount + 1) (s.convo ++ [⟨"assistant", (stepTxt env s).1⟩])
            (stepTxt env s).1 (stepTxt env s).2 false
          rw [he] at h
          exact StepOut.noConfusion h
      · obtain ⟨s3, he, _, _⟩ := afterTool_state s (s.totalSteps + 1) (stepSub s)
          (s.genCount + 1) (s.convo ++ [⟨"assistant", (stepTxt env s).1⟩])
          (stepTxt env s).1 (stepTxt env s).2 false
        rw [he] at h
        exact StepOut.noConfusion h

theorem stepLoop_to_afterTool (env : Env) (ms : Nat) (s : LoopState)
    (hsub : s.active ≠ "Orchestrator" → s.subSteps + 1 ≤ ms)
    (hterm : ¬(s.active = "Orchestrator" ∧ detect_terminate (stepTxt env s).1 = true))
    (htc : tcTruthy (extract_tool_call (stepTxt env s).1) = false) :
    stepLoop env ms s =
      afterTool s (s.totalSteps + 1) (stepSub s) (s.genCount + 1)
        (s.convo ++ [⟨"assistant", (stepTxt env s).1⟩]) (stepTxt env s).1 (stepTxt env s).2 false := by
  unfold stepLoop
  rw [if_neg (no_breaker hsub), if_neg hterm]
  cases hx : extract_tool_call (stepTxt env s).1 with
  | none => rfl
  | some j =>
    rw [hx] at htc
    have hj : jsonTruthy j = false := htc
    simp only [hj, Bool.false_eq_true, if_false]

theorem stepLoop_tool_char (env : Env) (ms : Nat) (s : LoopState) (j : Json)
    (hsub : s.active ≠ "Orchestrator" → s.subSteps + 1 ≤ ms)
    (hterm : ¬(s.active = "Orchestrator" ∧ detect_terminate (stepTxt env s).1 = true))
    (htc : extract_tool_call (stepTxt env s).1 = some j)
    (htr : jsonTruthy j = true) :
    stepLoop env ms s = StepOut.next ⟨s.active,
      s.convo ++ [⟨"assistant", (stepTxt env s).1⟩, toolStepEntry env s j],
      s.totalSteps + 1, stepSub s, s.genCount + 1, toolStepCount s j⟩ := by
  unfold stepLoop
  rw [if_neg (no_breaker hsub), if_neg hterm, htc]
  simp only [htr, if_true]
  unfold toolStepEntry toolStepCount
  cases hn : pyGetItem j "name" with
  | error m => rfl
  | ok nameJ =>
    dsimp only
    cases ht : env.tool s.toolCount nameJ (jGetD j "arguments" (Json.obj [])) with
    | ok r => rfl
    | error m => rfl

theorem loopIter_le (env : Env) (mt ms : Nat) : ∀ (fuel : Nat) (s : LoopState),
    s.totalSteps ≤ mt → (loopIter env mt ms fuel s).1.totalSteps ≤ mt := by
  intro fuel
  induction fuel with
  | zero => intro s h; exact h
  | succ n ih =>
    intro s h
    unfold loopIter
    split
    · next hlt =>
      cases hstep : stepLoop env ms s with
      | next s2 =>
        have h2 : s2.totalSteps = s.totalSteps + 1 := by
          have := stepLoop_total env ms s
          rw [hstep] at this
          exact this
        exact ih s2 (by omega)
      | broke s2 =>
        have h2 : s2.totalSteps = s.totalSteps + 1 := by
          have := stepLoop_total env ms s
          rw [hstep] at this
          exact this
        show s2.totalSteps ≤ mt
        omega
    · exact h

theorem loopIter_exit_ge (env : Env) (mt ms : Nat) : ∀ (fuel : Nat) (s : LoopState),
    (loopIter env mt ms fuel s).2 = false → mt ≤ fuel + s.totalSteps →
    mt ≤ (loopIter env mt ms fuel s).1.totalSteps := by
  intro fuel
  induction fuel with
  | zero => intro s _ h2; exact Nat.le_trans h2 (Nat.le_of_eq (Nat.zero_add _))
  | succ n ih =>
    intro s h h2
    unfold loopIter at h ⊢
    by_cases hlt : s.totalSteps < mt
    · rw [if_pos hlt] at h ⊢
      cases hstep : stepLoop env ms s with
      | next s2 =>
        rw [hstep] at h
        dsimp only at h ⊢
        have h3 := stepLoop_total env ms s
        rw [hstep] at h3
        dsimp only [StepOut.state] at h3
        exact ih s2 h (by omega)
      | broke s2 =>
        rw [hstep] at h
        dsimp only at h
        exact absurd h (by simp)
    · rw [if_neg hlt] at h ⊢
      dsimp only
      omega

theorem loopIter_broke (env : Env) (mt ms : Nat) : ∀ (fuel : Nat) (s : LoopState),
    (loopIter env mt ms fuel s).2 = true →
    ∃ s0, stepLoop env ms s0 = StepOut.broke (loopIter env mt ms fuel s).1 := by
  intro fuel
  induction fuel with
  | zero => intro s h; exact absurd h (by simp [loopIter])
  | succ n ih =>
    intro s h
    unfold loopIter at h ⊢
    by_cases hlt : s.totalSteps < mt
    · rw [if_pos hlt] at h ⊢
      cases hstep : stepLoop env ms s with
      | next s2 =>
        rw [hstep] at h
        dsimp only at h ⊢
        exact ih s2 h
      | broke s2 =>
        dsimp only
        exact ⟨s, hstep⟩
    · rw [if_neg hlt] at h
      exact absurd h (by simp)

theorem reSearchTool_of_first (cap : List Char) : ∀ (k : Nat) (cs : List Char),
    toolMatchAt (cs.drop k) = some cap → (∀ i, i < k → toolMatchAt (cs.drop i) = none) →
    reSearchTool cs = some cap := by
  intro k
  induction k with
  | zero =>
    intro cs h _
    cases cs with
    | nil =>
      rw [List.drop_nil] at h
      rw [show toolMatchAt ([] : List Char) = none from rfl] at h
      exact Option.noConfusion h
    | cons c t =>
      rw [List.drop_zero] at h
      unfold reSearchTool
      rw [h]
  | succ n ih =>
    intro cs h hall
    cases cs with
    | nil =>
      rw [List.drop_nil] at h
      rw [show toolMatchAt ([] : List Char) = none from rfl] at h
      exact Option.noConfusion h
    | cons c t =>
      have h0 : toolMatchAt ((c :: t).drop 0) = none := hall 0 (Nat.succ_pos n)
      rw [List.drop_zero] at h0
      unfold reSearchTool
      rw [h0]
      rw [List.drop_succ_cons] at h
      exact ih t h fun i hi => by
        have := hall (i + 1) (Nat.succ_lt_succ hi)
        rwa [List.drop_succ_cons] at this

theorem afterTool_reminder (s : LoopState) (total sub gc : Nat) (convo1 : List Entry)
    (txt : String) (tflag : Bool)
    (hhf : tgtTruthy (detect_handoff txt) = false)
    (hflag : s.active = "Orchestrator" → tflag = false) :
    afterTool s total sub gc convo1 txt tflag false = StepOut.next ⟨s.active,
      convo1 ++ [⟨"system",
        if s.active = "Orchestrator" then ORCHESTRATOR_REMINDER else SUBAGENT_REMINDER⟩],
      total, sub, gc, s.toolCount⟩ := by
  unfold afterTool
  cases hd : detect_handoff txt with
  | none =>
    dsimp only
    by_cases hroot : s.active = "Orchestrator"
    · simp [reminderStep, hroot, hflag hroot]
    · simp [reminderStep, hroot]
  | some t =>
    have ht : t = "" := by
      rw [hd] at hhf
      simpa [tgtTruthy] using hhf
    subst ht
    dsimp only
    rw [if_neg (fun hc => hc rfl)]
    by_cases hroot : s.active = "Orchestrator"
    · simp [reminderStep, hroot, hflag hroot]
    · simp [reminderStep, hroot]

/-- C2: when a non-root agent's consecutive-turn counter has already
reached `maxSubagentSteps`, the next step appends the system notice,
forces the active agent back to the orchestrator, resets the counter, and
performs no generation call (`genCount` unchanged) while still counting
one total step; conversely, any step that does perform a generation call
with a non-root active agent has its incremented consecutive counter
within the limit, so a non-root agent never takes more than
`maxSubagentSteps` consecutive generation turns. -/
theorem c2_circuit_breaker (env : Env) (ms : Nat) (s : LoopState)
    (h1 : s.active ≠ "Orchestrator") (h2 : ms ≤ s.subSteps) :
    (stepLoop env ms s = StepOut.next ⟨"Orchestrator",
      s.convo ++ [⟨"system", SUBAGENT_STEP_LIMIT_MESSAGE⟩], s.totalSteps + 1, 0,
      s.genCount, s.toolCount⟩)
    ∧ (∀ s2 : LoopState, s2.active ≠ "Orchestrator" →
        (stepLoop env ms s2).state.genCount = s2.genCount + 1 →
        s2.subSteps + 1 ≤ ms) := by
  constructor
  · have hc : ms < stepSub s := by
      unfold stepSub
      rw [if_pos h1]
      omega
    unfold stepLoop
    rw [if_pos hc]
  · intro s2 hn hg
    by_contra hlt
    have hc : ms < stepSub s2 := by
      unfold stepSub
      rw [if_pos hn]
      omega
    have hb : stepLoop env ms s2 = StepOut.next ⟨"Orchestrator",
        s2.convo ++ [⟨"system", SUBAGENT_STEP_LIMIT_MESSAGE⟩], s2.totalSteps + 1, 0,
        s2.genCount, s2.toolCount⟩ := by
      unfold stepLoop
      rw [if_pos hc]
    rw [hb] at hg
    dsimp only [StepOut.state] at hg
    omega

theorem c2_circuit_breaker_witness :
    ("MailAgent" : String) ≠ "Orchestrator" ∧ (5 : Nat) ≤ 5 ∧
    stepLoop envIdle 5 sMail5 = StepOut.next ⟨"Orchestrator",
      [⟨"system", SUBAGENT_STEP_LIMIT_MESSAGE⟩], 1, 0, 3, 2⟩ :=
  ⟨by decide, le_refl 5, (c2_circuit_breaker envIdle 5 sMail5 (by decide) (le_refl 5)).1⟩

/-- C5: `Agent.handoff` always fails on a self hand-off; fails on a target
absent from the permitted list with an error naming the allowed targets;
and on a permitted target returns an agent of that name from the list. -/
theorem c5_resolve_handoff :
    (∀ self : Agent, self.handoff self.name =
      Except.error ("Cannot hand off to self (" ++ self.name ++ ")"))
    ∧ (∀ (self : Agent) (target : String), target ≠ self.name →
        (∀ a ∈ self.handoffs, a.name ≠ target) →
        self.handoff target =
          Except.error ("Handoff to \x27" ++ target ++ "\x27 not allowed. Allowed: "
            ++ String.intercalate ", " (self.handoffs.map Agent.name)))
    ∧ (∀ (self : Agent) (target : String), target ≠ self.name →
        (∃ a ∈ self.handoffs, a.name = target) →
        ∃ a, self.handoff target = Except.ok a ∧ a.name = target ∧ a ∈ self.handoffs) := by
  refine ⟨?_, ?_, ?_⟩
  · intro self
    unfold Agent.handoff
    rw [if_pos rfl]
  · intro self target h1 h2
    unfold Agent.handoff
    rw [if_neg h1]
    have hf : self.handoffs.find? (fun a => a.name == target) = none :=
      List.find?_eq_none.mpr fun a ha => by simpa using h2 a ha
    rw [hf]
  · intro self target h1 h2
    unfold Agent.handoff
    rw [if_neg h1]
    cases hf : self.handoffs.find? (fun a => a.name == target) with
    | none =>
      obtain ⟨a, ha, hname⟩ := h2
      have := List.find?_eq_none.mp hf a ha
      simp only [beq_iff_eq] at this
      exact absurd hname this
    | some a =>
      refine ⟨a, rfl, ?_, List.mem_of_find?_eq_some hf⟩
      have := List.find?_some hf
      simpa using this

theorem c5_resolve_handoff_witness :
    orchA.handoff "Orchestrator" = Except.error "Cannot hand off to self (Orchestrator)" ∧
    (∃ a, orchA.handoff "MailAgent" = Except.ok a ∧ a.name = "MailAgent" ∧ a ∈ orchA.handoffs) ∧
    orchA.handoff "Ghost" =
      Except.error "Handoff to \x27Ghost\x27 not allowed. Allowed: MailAgent" := by
  refine ⟨c5_resolve_handoff.1 orchA, ?_, ?_⟩
  · exact c5_resolve_handoff.2.2 orchA "MailAgent" (by decide)
      ⟨mailLeaf, List.mem_singleton_self mailLeaf, rfl⟩
  · exact c5_resolve_handoff.2.1 orchA "Ghost" (by decide)
      (by
        intro a ha
        have : a = mailLeaf := List.mem_singleton.mp ha
        subst this
        decide)

/-- C7: a termination marker in a non-root agent's text never ends the
workflow: the step never produces the loop `break`, and indeed the
streaming terminate flag is never raised for a non-root agent; handling
proceeds as for any other step. -/
theorem c7_nonroot_marker (env : Env) (ms : Nat) (s : LoopState)
    (h : s.active ≠ "Orchestrator") :
    (∃ s2, stepLoop env ms s = StepOut.next s2) ∧ (stepTxt env s).2 = false := by
  constructor
  · cases hstep : stepLoop env ms s with
    | next s2 => exact ⟨s2, rfl⟩
    | broke s2 => exact absurd (stepLoop_broke env ms s s2 hstep).1 h
  · unfold stepTxt
    have hb : (s.active == "Orchestrator") = false := beq_eq_false_iff_ne.mpr h
    rw [hb]
    exact streamFold_false_flag _ _

theorem c7_nonroot_marker_witness :
    (∃ s2, stepLoop envTerm 10 sMailTerm = StepOut.next s2) ∧
    (stepTxt envTerm sMailTerm).2 = false :=
  c7_nonroot_marker envTerm 10 sMailTerm (by decide)

/-- C3 counterexample: in the Scenario A step the transcript grows by the
assistant turn plus one entry of role "system" (content wrapped in
tool-result tags); no transcript entry ever carries the role
"tool-result", refuting the claimed role of the appended entry. -/
theorem c3_role_counterexample :
    stepLoop envC3 10 sC3 = StepOut.next ⟨"Orchestrator",
      [⟨"system", "M"⟩,
        ⟨"assistant", "<tool_call>\x7b\x22name\x22:\x22log_ticket\x22,\x22arguments\x22:\x7b\x22status\x22:\x22ok\x22,\x22outcome\x22:\x22success\x22\x7d\x7d</tool_call>"⟩,
        ⟨"system", "<tool_result>logged</tool_result>"⟩], 1, 0, 1, 1⟩
    ∧ ((stepLoop envC3 10 sC3).state.convo.all (fun e => e.role != "tool-result")) = true :=
  ⟨rfl, rfl⟩

/-- C3 (amended): a step whose generated text yields a truthy tool-call
payload (and, for root, no termination marker) appends exactly two
transcript entries — the assistant turn, then one entry of role "system"
carrying the wrapped tool result or the caught error — with the active
agent unchanged and `totalSteps` incremented by exactly one. -/
theorem c3_tool_step (env : Env) (ms : Nat) (s : LoopState) (j : Json)
    (hsub : s.active ≠ "Orchestrator" → s.subSteps + 1 ≤ ms)
    (hterm : ¬(s.active = "Orchestrator" ∧ detect_terminate (stepTxt env s).1 = true))
    (htc : extract_tool_call (stepTxt env s).1 = some j)
    (htr : jsonTruthy j = true) :
    stepLoop env ms s = StepOut.next ⟨s.active,
      s.convo ++ [⟨"assistant", (stepTxt env s).1⟩, toolStepEntry env s j],
      s.totalSteps + 1, stepSub s, s.genCount + 1, toolStepCount s j⟩
    ∧ (toolStepEntry env s j).role = "system" := by
  refine ⟨stepLoop_tool_char env ms s j hsub hterm htc htr, ?_⟩
  unfold toolStepEntry
  cases pyGetItem j "name" with
  | error m => rfl
  | ok nameJ =>
    dsimp only
    cases env.tool s.toolCount nameJ (jGetD j "arguments" (Json.obj [])) <;> rfl

theorem c3_tool_step_witness :
    stepLoop envC3 10 sC3 = StepOut.next ⟨sC3.active,
      sC3.convo ++ [⟨"assistant", (stepTxt envC3 sC3).1⟩, toolStepEntry envC3 sC3 jC3],
      sC3.totalSteps + 1, stepSub sC3, sC3.genCount + 1, toolStepCount sC3 jC3⟩
    ∧ (toolStepEntry envC3 sC3 jC3).role = "system" :=
  c3_tool_step envC3 10 sC3 jC3 (fun h => absurd rfl h) (by decide) rfl rfl

/-- C10: when a tool-call payload parses to a truthy value, the loop body
never raises: the step always continues with the active agent unchanged;
a payload without a "name" field has its `KeyError` caught and appended as
a system entry "Tool error: 'name'"; a payload without an "arguments"
field is invoked with the empty arguments object; and any exception from
the invocation is appended as a system entry beginning "Tool error:". -/
theorem c10_tool_invocation (env : Env) (ms : Nat) (s : LoopState) (j : Json)
    (hsub : s.active ≠ "Orchestrator" → s.subSteps + 1 ≤ ms)
    (hterm : ¬(s.active = "Orchestrator" ∧ detect_terminate (stepTxt env s).1 = true))
    (htc : extract_tool_call (stepTxt env s).1 = some j)
    (htr : jsonTruthy j = true) :
    (∃ s2, stepLoop env ms s = StepOut.next s2 ∧ s2.active = s.active)
    ∧ (∀ m, pyGetItem j "name" = Except.error m →
        stepLoop env ms s = StepOut.next ⟨s.active,
          s.convo ++ [⟨"assistant", (stepTxt env s).1⟩, ⟨"system", "Tool error: " ++ m⟩],
          s.totalSteps + 1, stepSub s, s.genCount + 1, s.toolCount⟩)
    ∧ (∀ nameJ, pyGetItem j "name" = Except.ok nameJ → hasKey j "arguments" = false →
        toolStepEntry env s j =
          (match env.tool s.toolCount nameJ (Json.obj []) with
            | Except.ok r => (⟨"system", "<tool_result>" ++ r ++ "</tool_result>"⟩ : Entry)
            | Except.error m => (⟨"system", "Tool error: " ++ m⟩ : Entry)))
    ∧ (∀ nameJ m, pyGetItem j "name" = Except.ok nameJ →
        env.tool s.toolCount nameJ (jGetD j "arguments" (Json.obj [])) = Except.error m →
        toolStepEntry env s j = ⟨"system", "Tool error: " ++ m⟩) := by
  have hchar := stepLoop_tool_char env ms s j hsub hterm htc htr
  refine ⟨⟨_, hchar, rfl⟩, ?_, ?_, ?_⟩
  · intro m hm
    rw [hchar]
    unfold toolStepEntry toolStepCount
    rw [hm]
  · intro nameJ hn hargs
    unfold toolStepEntry
    rw [hn]
    dsimp only
    rw [jGetD_of_not_hasKey j "arguments" (Json.obj []) hargs]
  · intro nameJ m hn htool
    unfold toolStepEntry
    rw [hn]
    dsimp only
    rw [htool]

theorem c10_tool_invocation_witness :
    (∃ s2, stepLoop envC10 10 sC10 = StepOut.next s2 ∧ s2.active = sC10.active) ∧
    toolStepEntry envC10 sC10 jC10 = ⟨"system", "Tool error: boom"⟩ :=
  ⟨(c10_tool_invocation envC10 10 sC10 jC10 (fun h => absurd rfl h) (by decide) rfl rfl).1,
   (c10_tool_invocation envC10 10 sC10 jC10 (fun h => absurd rfl h) (by decide) rfl rfl).2.2.2
     (Json.str "ping") "boom" rfl rfl⟩

/-- C8: in a step that detects a truthy hand-off target (no tool call or
termination taking precedence), a failed resolution appends the error as a
system entry with the active agent unchanged and no counter reset, while a
successful resolution switches the active agent to the resolved target and
resets the consecutive-subagent counter exactly when that target is the
root. -/
theorem c8_handoff_step (env : Env) (ms : Nat) (s : LoopState) (target : String)
    (hsub : s.active ≠ "Orchestrator" → s.subSteps + 1 ≤ ms)
    (hterm : ¬(s.active = "Orchestrator" ∧ detect_terminate (stepTxt env s).1 = true))
    (htc : tcTruthy (extract_tool_call (stepTxt env s).1) = false)
    (htgt : detect_handoff (stepTxt env s).1 = some target)
    (hne : target ≠ "") :
    (∀ e, handoffByName s.active target = Except.error e →
      stepLoop env ms s = StepOut.next ⟨s.active,
        s.convo ++ [⟨"assistant", (stepTxt env s).1⟩, ⟨"system", "Handoff failed: " ++ e⟩],
        s.totalSteps + 1, stepSub s, s.genCount + 1, s.toolCount⟩)
    ∧ (∀ na, handoffByName s.active target = Except.ok na →
      stepLoop env ms s = StepOut.next ⟨na,
        s.convo ++ [⟨"assistant", (stepTxt env s).1⟩],
        s.totalSteps + 1, (if na = "Orchestrator" then 0 else stepSub s),
        s.genCount + 1, s.toolCount⟩) := by
  have hstep := stepLoop_to_afterTool env ms s hsub hterm htc
  constructor
  · intro e he
    rw [hstep]
    unfold afterTool
    rw [htgt]
    dsimp only
    rw [if_pos hne, he]
    dsimp only
    simp [List.append_assoc]
  · intro na hna
    rw [hstep]
    unfold afterTool
    rw [htgt]
    dsimp only
    rw [if_pos hne, hna]

theorem c8_handoff_step_witness :
    stepLoop envHand 10 sMailHand = StepOut.next ⟨"Orchestrator",
      sMailHand.convo ++ [⟨"assistant", (stepTxt envHand sMailHand).1⟩],
      sMailHand.totalSteps + 1,
      (if ("Orchestrator" : String) = "Orchestrator" then 0 else stepSub sMailHand),
      sMailHand.genCount + 1, sMailHand.toolCount⟩ :=
  (c8_handoff_step envHand 10 sMailHand "Orchestrator"
    (fun _ => by decide) (by decide) rfl rfl (by decide)).2 "Orchestrator" rfl

/-- C4: tool-call extraction returns `json.loads` of the capture of the
leftmost regex match (first well-formed match wins); and in a step whose
text carries the tag but whose payload does not parse, extraction yields
no action and the step falls through past the hand-off check to the
role-specific corrective reminder, never an error. -/
theorem c4_extraction (env : Env) (ms : Nat) (s : LoopState) :
    (∀ (text : String) (cap : List Char), FirstToolCapture text cap →
      extract_tool_call text = jsonLoads (String.mk cap))
    ∧ ((s.active ≠ "Orchestrator" → s.subSteps + 1 ≤ ms) →
      ¬(s.active = "Orchestrator" ∧ detect_terminate (stepTxt env s).1 = true) →
      containsStr "<tool_call>" (stepTxt env s).1 = true →
      extract_tool_call (stepTxt env s).1 = none →
      tgtTruthy (detect_handoff (stepTxt env s).1) = false →
      stepLoop env ms s = StepOut.next ⟨s.active,
        s.convo ++ [⟨"assistant", (stepTxt env s).1⟩,
          ⟨"system", if s.active = "Orchestrator" then ORCHESTRATOR_REMINDER
            else SUBAGENT_REMINDER⟩],
        s.totalSteps + 1, stepSub s, s.genCount + 1, s.toolCount⟩) := by
  constructor
  · intro text cap hfirst
    obtain ⟨k, h1, h2⟩ := hfirst
    unfold extract_tool_call
    rw [reSearchTool_of_first cap k text.toList h1 h2]
  · intro hsub hterm _ hx hhf
    have htc : tcTruthy (extract_tool_call (stepTxt env s).1) = false := by
      rw [hx]
      rfl
    have hflag : s.active = "Orchestrator" → (stepTxt env s).2 = false := by
      intro hroot
      cases hf : (stepTxt env s).2
      · rfl
      · exfalso
        have hft := streamFold_flag_terminate (s.active == "Orchestrator")
          (env.gen s.genCount) "" hf
        exact hterm ⟨hroot, hft.2⟩
    rw [stepLoop_to_afterTool env ms s hsub hterm htc,
      afterTool_reminder s (s.totalSteps + 1) (stepSub s) (s.genCount + 1)
        (s.convo ++ [Entry.mk "assistant" (stepTxt env s).1]) (stepTxt env s).1
        (stepTxt env s).2 hhf hflag]
    simp [List.append_assoc]

theorem c4_extraction_witness :
    extract_tool_call txtC4 = jsonLoads (String.mk ("\x7bbad\x7d".toList)) ∧
    stepLoop envC4 10 sC4 = StepOut.next ⟨sC4.active,
      sC4.convo ++ [⟨"assistant", (stepTxt envC4 sC4).1⟩,
        ⟨"system", if sC4.active = "Orchestrator" then ORCHESTRATOR_REMINDER
          else SUBAGENT_REMINDER⟩],
      sC4.totalSteps + 1, stepSub sC4, sC4.genCount + 1, sC4.toolCount⟩ :=
  ⟨(c4_extraction envC4 10 sC4).1 txtC4 ("\x7bbad\x7d".toList)
      ⟨0, rfl, fun i hi => absurd hi (Nat.not_lt_zero i)⟩,
   (c4_extraction envC4 10 sC4).2 (fun h => absurd rfl h) (by decide) rfl rfl rfl⟩

theorem handle_callTool (srv : SimpleServer) (name : String) (args : Json) :
    srv.handle (callToolReq name args) =
      match lookupTool srv.tools name with
      | none =>
        Except.ok (Json.obj [("error", Json.str ("Tool \x27" ++ name ++ "\x27 not found")),
          ("isError", Json.bool true)])
      | some t =>
        match t.fn args with
        | Except.ok content =>
          Except.ok (Json.obj [("content", content), ("isError", Json.bool false)])
        | Except.error m =>
          Except.ok (Json.obj [("error", Json.str m), ("isError", Json.bool true)]) := by
  unfold SimpleServer.handle callToolReq
  try dsimp only
  rw [show jlookup [("type", Json.str "call_tool"), ("name", Json.str name), ("args", args)]
      "type" = some (Json.str "call_tool") from rfl]
  rw [if_neg (by decide), if_pos (by decide)]
  rw [show jlookup [("type", Json.str "call_tool"), ("name", Json.str name), ("args", args)]
      "name" = some (Json.str name) from rfl]
  try dsimp only
  rw [show jlookup [("type", Json.str "call_tool"), ("name", Json.str name), ("args", args)]
      "args" = some args from rfl]
  simp only [Option.getD_some]
  rw [show toolsGet srv.tools (Json.str name) = Except.ok (lookupTool srv.tools name) from rfl]
  cases lookupTool srv.tools name with
  | none => rfl
  | some t =>
    cases t.fn args with
    | ok content => rfl
    | error m => rfl

/-- C6: a well-formed `callTool` request against a registered tool whose
handler returns yields a single `isError:false` response carrying the
handler's result; against an unregistered name a single `isError:true`
response with a non-empty "not found" message; and a raising handler a
single `isError:true` response carrying the exception message — in all
three cases `_handle` returns exactly one response and no exception
escapes to the server loop. -/
theorem c6_call_tool (srv : SimpleServer) (name : String) (args : Json) :
    (∀ t r, lookupTool srv.tools name = some t → t.fn args = Except.ok r →
      srv.handle (callToolReq name args) =
        Except.ok (Json.obj [("content", r), ("isError", Json.bool false)]))
    ∧ (lookupTool srv.tools name = none →
      srv.handle (callToolReq name args) =
        Except.ok (Json.obj [("error", Json.str ("Tool \x27" ++ name ++ "\x27 not found")),
          ("isError", Json.bool true)]) ∧
        ("Tool \x27" ++ name ++ "\x27 not found") ≠ "")
    ∧ (∀ t m, lookupTool srv.tools name = some t → t.fn args = Except.error m →
      srv.handle (callToolReq name args) =
        Except.ok (Json.obj [("error", Json.str m), ("isError", Json.bool true)])) := by
  refine ⟨?_, ?_, ?_⟩
  · intro t r hl hf
    rw [handle_callTool, hl]
    dsimp only
    rw [hf]
  · intro hl
    constructor
    · rw [handle_callTool, hl]
    · intro h
      have hlen := congrArg String.length h
      simp [String.length_append] at hlen
      exact absurd hlen.2 (by decide)
  · intro t m hl hf
    rw [handle_callTool, hl]
    dsimp only
    rw [hf]

theorem c6_call_tool_witness :
    SimpleServer.handle srvW (callToolReq "echo" Json.null) =
      Except.ok (Json.obj [("content", Json.null), ("isError", Json.bool false)]) ∧
    SimpleServer.handle srvW (callToolReq "ghost" Json.null) =
      Except.ok (Json.obj [("error", Json.str "Tool \x27ghost\x27 not found"),
        ("isError", Json.bool true)]) :=
  ⟨(c6_call_tool srvW "echo" Json.null).1 echoTool Json.null rfl rfl,
   ((c6_call_tool srvW "ghost" Json.null).2.1 rfl).1⟩

/-- C9 counterexample: a `call_tool` request that does contain a "name"
key but whose name is a JSON array makes `_handle` raise (Python
`dict.get` rejects unhashable keys), so presence of the "name" key alone
does not make the handler total. -/
theorem c9_counterexample :
    hasKey reqUnhashable "name" = true ∧
    SimpleServer.handle srvEmpty reqUnhashable =
      Except.error "unhashable type: \x27list\x27" :=
  ⟨rfl, rfl⟩

/-- C9 (amended): for every `call_tool` request carrying a "name" key whose
value is not an array or object, `_handle` returns exactly one response
and never raises — whether the name is unknown or the handler itself
raises; a request without a "name" key makes `_handle` raise the
`KeyError`. -/
theorem c9_handle_total (srv : SimpleServer) (fields : List (String × Json)) :
    (∀ nj, jlookup fields "type" = some (Json.str "call_tool") →
      jlookup fields "name" = some nj →
      (∀ xs, nj ≠ Json.arr xs) → (∀ fs, nj ≠ Json.obj fs) →
      ∃ resp, SimpleServer.handle srv (Json.obj fields) = Except.ok resp)
    ∧ (jlookup fields "type" = some (Json.str "call_tool") →
      jlookup fields "name" = none →
      SimpleServer.handle srv (Json.obj fields) = Except.error "\x27name\x27") := by
  constructor
  · intro nj ht hn harr hobj
    unfold SimpleServer.handle
    dsimp only
    rw [ht]
    rw [if_neg (by decide), if_pos (by decide)]
    rw [hn]
    dsimp only
    cases nj with
    | arr xs => exact absurd rfl (harr xs)
    | obj fs => exact absurd rfl (hobj fs)
    | null => exact ⟨_, rfl⟩
    | bool b => exact ⟨_, rfl⟩
    | num r => exact ⟨_, rfl⟩
    | str ss =>
      rw [show toolsGet srv.tools (Json.str ss) = Except.ok (lookupTool srv.tools ss) from rfl]
      cases hlk : lookupTool srv.tools ss with
      | none => exact ⟨_, rfl⟩
      | some t =>
        dsimp only
        cases hft : t.fn ((jlookup fields "args").getD (Json.obj [])) with
        | ok content => exact ⟨_, rfl⟩
        | error m => exact ⟨_, rfl⟩
  · intro ht hn
    unfold SimpleServer.handle
    dsimp only
    rw [ht]
    rw [if_neg (by decide), if_pos (by decide)]
    rw [hn]

theorem c9_handle_total_witness :
    (∃ resp, SimpleServer.handle srvEmpty (Json.obj fieldsW) = Except.ok resp) ∧
    SimpleServer.handle srvEmpty (Json.obj [("type", Json.str "call_tool")]) =
      Except.error "\x27name\x27" :=
  ⟨(c9_handle_total srvEmpty fieldsW).1 (Json.str "nope") rfl rfl
      (fun _ h => Json.noConfusion h) (fun _ h => Json.noConfusion h),
   (c9_handle_total srvEmpty [("type", Json.str "call_tool")]).2 rfl rfl⟩

/-- C1 counterexample: with `max_total_steps = 1`, a root that emits the
termination marker on the first (and last in-budget) step ends the run
through the marker — yet the forced-termination notice is still appended
to the transcript, because the post-loop check `total_steps >=
max_total_steps` also holds on a marker-terminated final step.  This
refutes "the forced-termination notice is never appended to a run the
root ended with the termination marker". -/
theorem c1_claim_counterexample :
    (run_agentic_workflow envTerm "alert" 1 10).terminatedByMarker = true ∧
    (run_agentic_workflow envTerm "alert" 1 10).convo.getLast? =
      some ⟨"system", MAX_TOTAL_STEPS_MESSAGE⟩ :=
  ⟨rfl, rfl⟩

/-- C1 (amended): at loop exit `totalSteps ≤ maxTotalSteps` always holds;
a run that does not end through the marker exhausts the budget exactly
(`totalSteps = maxTotalSteps`) and carries the forced-termination notice
as its last transcript entry; a run that ends through the marker ends on
a root assistant turn containing the marker, followed by the
forced-termination notice exactly when the final step also exhausted the
budget; and the loop `break` (the spec's `Terminated`) is reachable only
from a root turn whose text contains the marker. -/
theorem c1_budget_and_termination (env : Env) (msg : String) (mt ms : Nat) :
    (run_agentic_workflow env msg mt ms).totalSteps ≤ mt
    ∧ ((run_agentic_workflow env msg mt ms).terminatedByMarker = false →
        (run_agentic_workflow env msg mt ms).totalSteps = mt ∧
        (run_agentic_workflow env msg mt ms).convo.getLast? =
          some ⟨"system", MAX_TOTAL_STEPS_MESSAGE⟩)
    ∧ ((run_agentic_workflow env msg mt ms).terminatedByMarker = true →
        ∃ pre txt, detect_terminate txt = true ∧
          ((run_agentic_workflow env msg mt ms).convo = pre ++ [⟨"assistant", txt⟩] ∨
           ((run_agentic_workflow env msg mt ms).convo =
              pre ++ [⟨"assistant", txt⟩, ⟨"system", MAX_TOTAL_STEPS_MESSAGE⟩] ∧
            mt ≤ (run_agentic_workflow env msg mt ms).totalSteps)))
    ∧ (∀ s s2, stepLoop env ms s = StepOut.broke s2 →
        s.active = "Orchestrator" ∧ detect_terminate (stepTxt env s).1 = true ∧
        s2.convo = s.convo ++ [⟨"assistant", (stepTxt env s).1⟩]) := by
  refine ⟨?_, ?_, ?_, ?_⟩
  · exact loopIter_le env mt ms mt (initState msg) (Nat.zero_le mt)
  · intro hb
    have hge : mt ≤ (loopIter env mt ms mt (initState msg)).1.totalSteps :=
      loopIter_exit_ge env mt ms mt (initState msg) hb (Nat.le_of_eq (Nat.add_zero mt).symm)
    have hle : (loopIter env mt ms mt (initState msg)).1.totalSteps ≤ mt :=
      loopIter_le env mt ms mt (initState msg) (Nat.zero_le mt)
    refine ⟨Nat.le_antisymm hle hge, ?_⟩
    unfold run_agentic_workflow
    dsimp only
    rw [if_pos hge]
    exact lastConcat _ _
  · intro hb
    obtain ⟨s0, hbstep⟩ := loopIter_broke env mt ms mt (initState msg) hb
    obtain ⟨hroot, hterm, hs2⟩ := stepLoop_broke env ms s0 _ hbstep
    refine ⟨s0.convo, (stepTxt env s0).1, hterm, ?_⟩
    by_cases hge : mt ≤ (loopIter env mt ms mt (initState msg)).1.totalSteps
    · right
      refine ⟨?_, hge⟩
      unfold run_agentic_workflow
      dsimp only
      rw [if_pos hge, hs2]
      simp [List.append_assoc]
    · left
      unfold run_agentic_workflow
      dsimp only
      rw [if_neg hge, hs2]
  · intro s s2 h
    obtain ⟨h1, h2, h3⟩ := stepLoop_broke env ms s s2 h
    exact ⟨h1, h2, by rw [h3]⟩

theorem c1_budget_and_termination_witness :
    (run_agentic_workflow envIdle "m" 2 5).totalSteps ≤ 2 ∧
    (run_agentic_workflow envIdle "m" 2 5).totalSteps = 2 ∧
    (run_agentic_workflow envIdle "m" 2 5).convo.getLast? =
      some ⟨"system", MAX_TOTAL_STEPS_MESSAGE⟩ :=
  ⟨(c1_budget_and_termination envIdle "m" 2 5).1,
   ((c1_budget_and_termination envIdle "m" 2 5).2.1 rfl).1,
   ((c1_budget_and_termination envIdle "m" 2 5).2.1 rfl).2⟩
